import Mathlib

set_option linter.unusedVariables false

/-
  Shallow embedding of the MADB persistence layer (src/js/db.js).

  Modelling conventions:
  - Each IndexedDB object store keyed by an in-line keyPath is a Lean list of
    records; a put replaces the record with the matching key or appends.
  - Wall-clock instants produced by Date.now() and new Date().toISOString()
    are modelled as Nat milliseconds; ISO-8601 strings compare the same way
    the underlying instants do, so monotonicity statements transfer.
  - The ISO date-time strings handed to saveTaskCompletion are modelled as
    Int epoch milliseconds in a fixed-offset local time (no DST), so
    setHours(0,0,0,0) is flooring to a multiple of a day.
  - Asynchronous failure (throw / rejected promise) is Except.error.
-/

namespace MADB

/-- Error kinds surfaced by the storage layer: a missing entity on
markFarmCompleted / markFarmActive / saveTaskCompletion, an invalid backup
document on importAllData, and the IndexedDB DataError raised by a put with
an explicit key on a keyPath store. -/
inductive DBError where
  | notFound
  | invalidFormat
  | dataError
deriving Repr, DecidableEq

/-- One task-completion record embedded in a farm (db.js:673-680). -/
structure TaskCompletion where
  stageIndex : Nat
  taskIndex : Nat
  scheduledDate : Int
  completedDate : Int
  delayDays : Int
  timestamp : Nat
deriving Repr, DecidableEq

/-- A farm record as stored in the farms object store. Optional fields model
JS fields that may be absent; completedDate none models both absent and null. -/
structure Farm where
  id : String
  name : String := ""
  size : Rat := 0
  startDate : String := ""
  cropping : String := ""
  completed : Bool := false
  completedDate : Option Nat := none
  createdAt : Option Nat := none
  updatedAt : Option Nat := none
  taskCompletions : Option (List TaskCompletion) := none
deriving Repr, DecidableEq

/-- An expense record as stored in the expenses object store. -/
structure Expense where
  id : String
  farmId : Option String := none
  name : String := ""
  category : String := ""
  amount : Rat := 0
  date : String := ""
deriving Repr, DecidableEq

/-- The legacy single-farm record stored under the farmInfo key (db.js:507). -/
structure LegacyFarm where
  name : String := ""
  size : Rat := 0
  startDate : String := ""
  cropping : String := ""
deriving Repr, DecidableEq

/-- The whole database state: the farms store, the expenses store, the
selectedFarmId settings entry, and the legacy farmInfo slot. -/
structure Store where
  farms : List Farm := []
  expenses : List Expense := []
  selectedFarmId : Option String := none
  legacyFarm : Option LegacyFarm := none
deriving Repr, DecidableEq

/-- IndexedDB put into a store with an in-line keyPath: replaces the record
whose key matches, else appends. -/
def putByKey {α : Type} (key : α → String) (l : List α) (x : α) : List α :=
  if l.any (fun y => decide (key y = key x)) then
    l.map (fun y => if key y = key x then x else y)
  else l ++ [x]

/-- getAllFarms (db.js:315-333). -/
def getAllFarms (s : Store) : List Farm := s.farms

/-- getFarm (db.js:340-358): store.get on the farms keyPath store. -/
def getFarm (farmId : String) (s : Store) : Option Farm :=
  s.farms.find? (fun f => decide (f.id = farmId))

/-- The id generation scheme used by saveFarm and migrateLegacyData. -/
def genFarmId (now : Nat) : String := "farm_" ++ toString now

/-- saveFarm (db.js:364-387): generate an id when the current id is falsy,
then put; returns the stored id. -/
def saveFarm (now : Nat) (farm : Farm) (s : Store) : String × Store :=
  let farm1 := if farm.id = "" then { farm with id := genFarmId now } else farm
  (farm1.id, { s with farms := putByKey Farm.id s.farms farm1 })

/-- getAllExpenses (db.js:191-209). -/
def getAllExpenses (s : Store) : List Expense := s.expenses

/-- saveExpense (db.js:215-232): put into the expenses keyPath store. -/
def saveExpense (e : Expense) (s : Store) : Store :=
  { s with expenses := putByKey Expense.id s.expenses e }

/-- deleteExpense (db.js:238-255). -/
def deleteExpense (expenseId : String) (s : Store) : Store :=
  { s with expenses := s.expenses.filter (fun e => decide (¬ e.id = expenseId)) }

/-- getExpensesByFarm (db.js:463-482): farmId index getAll. -/
def getExpensesByFarm (farmId : String) (s : Store) : List Expense :=
  s.expenses.filter (fun e => decide (e.farmId = some farmId))

/-- deleteExpensesByFarm (db.js:488-499): sequential per-record delete over
the snapshot returned by getExpensesByFarm. -/
def deleteExpensesByFarm (farmId : String) (s : Store) : Store :=
  (getExpensesByFarm farmId s).foldl (fun st e => deleteExpense e.id st) s

/-- getSelectedFarmId (db.js:416-433). -/
def getSelectedFarmId (s : Store) : Option String := s.selectedFarmId

/-- setSelectedFarmId (db.js:439-456). -/
def setSelectedFarmId (farmId : String) (s : Store) : Store :=
  { s with selectedFarmId := some farmId }

/-- migrateLegacyData (db.js:504-546): if a legacy record exists and no farms
exist, synthesize a farm from it, select it, and relink every expense with a
falsy farmId. -/
def migrateLegacyData (now : Nat) (s : Store) : Store :=
  match s.legacyFarm with
  | none => s
  | some legacy =>
    if 0 < s.farms.length then s
    else
      let newFarm : Farm :=
        { id := genFarmId now, name := legacy.name, size := legacy.size,
          startDate := legacy.startDate, cropping := legacy.cropping,
          createdAt := some now }
      let s1 := (saveFarm now newFarm s).2
      let s2 := setSelectedFarmId newFarm.id s1
      (getAllExpenses s2).foldl
        (fun st e =>
          if e.farmId.getD "" = "" then
            saveExpense { e with farmId := some newFarm.id } st
          else st) s2

/-- markFarmCompleted (db.js:552-569). -/
def markFarmCompleted (now : Nat) (farmId : String) (s : Store) :
    Except DBError Store :=
  match getFarm farmId s with
  | none => .error .notFound
  | some farm =>
    .ok (saveFarm now
          { farm with completed := true, completedDate := some now,
                      updatedAt := some now } s).2

/-- markFarmActive (db.js:575-592). -/
def markFarmActive (now : Nat) (farmId : String) (s : Store) :
    Except DBError Store :=
  match getFarm farmId s with
  | none => .error .notFound
  | some farm =>
    .ok (saveFarm now
          { farm with completed := false, completedDate := none,
                      updatedAt := some now } s).2

/-- Milliseconds per day, the divisor at db.js:666. -/
def msPerDay : Int := 86400000

/-- Date.setHours(0,0,0,0) on an epoch-milliseconds instant in a fixed-offset
local time (db.js:664-665). -/
def normalizeToMidnight (t : Int) : Int := Int.fdiv t msPerDay * msPerDay

/-- Math.floor((completed - scheduled) / msPerDay) after both dates are
normalized to midnight (db.js:662-666). -/
def delayDaysOf (scheduledDate completedDate : Int) : Int :=
  Int.fdiv (normalizeToMidnight completedDate - normalizeToMidnight scheduledDate) msPerDay

/-- The findIndex predicate at db.js:669-671. -/
def sameTask (stageIndex taskIndex : Nat) (tc : TaskCompletion) : Bool :=
  tc.stageIndex == stageIndex && tc.taskIndex == taskIndex

/-- The find-and-replace-or-push update of the taskCompletions list inside
saveTaskCompletion (db.js:669-688). -/
def upsertCompletion (stageIndex taskIndex : Nat) (l : List TaskCompletion)
    (c : TaskCompletion) : List TaskCompletion :=
  match l.findIdx? (sameTask stageIndex taskIndex) with
  | some i => l.set i c
  | none => l ++ [c]

/-- saveTaskCompletion (db.js:649-699). -/
def saveTaskCompletion (now : Nat) (farmId : String) (stageIndex taskIndex : Nat)
    (scheduledDate completedDate : Int) (s : Store) :
    Except DBError (TaskCompletion × Store) :=
  match getFarm farmId s with
  | none => .error .notFound
  | some farm =>
    let l := farm.taskCompletions.getD []
    let c : TaskCompletion :=
      { stageIndex := stageIndex, taskIndex := taskIndex,
        scheduledDate := scheduledDate, completedDate := completedDate,
        delayDays := delayDaysOf scheduledDate completedDate, timestamp := now }
    let farm1 :=
      { farm with taskCompletions := some (upsertCompletion stageIndex taskIndex l c),
                  updatedAt := some now }
    .ok (c, (saveFarm now farm1 s).2)

/-- getTaskCompletions (db.js:706-717). -/
def getTaskCompletions (farmId : String) (s : Store) : List TaskCompletion :=
  match getFarm farmId s with
  | none => []
  | some farm => farm.taskCompletions.getD []

/-- deleteTaskCompletion (db.js:725-744): returns early when the farm or its
taskCompletions field is missing; otherwise filters the pair out, refreshes
updatedAt, and saves. -/
def deleteTaskCompletion (now : Nat) (farmId : String) (stageIndex taskIndex : Nat)
    (s : Store) : Store :=
  match getFarm farmId s with
  | none => s
  | some farm =>
    match farm.taskCompletions with
    | none => s
    | some l =>
      let farm1 :=
        { farm with
            taskCompletions := some (l.filter (fun tc => !(sameTask stageIndex taskIndex tc))),
            updatedAt := some now }
      (saveFarm now farm1 s).2

/-- The backup document produced by exportAllData (db.js:756-762). -/
structure ExportData where
  version : String
  exportDate : Nat
  selectedFarmId : Option String
  farms : List Farm
  expenses : List Expense
deriving Repr, DecidableEq

/-- An arbitrary input document handed to importAllData: every field may be
missing. -/
structure BackupDoc where
  version : Option String := none
  exportDate : Option Nat := none
  selectedFarmId : Option String := none
  farms : Option (List Farm) := none
  expenses : Option (List Expense) := none
deriving Repr, DecidableEq

/-- A well-formed export document viewed as an import input: all fields present. -/
def ExportData.toBackupDoc (d : ExportData) : BackupDoc :=
  { version := some d.version, exportDate := some d.exportDate,
    selectedFarmId := d.selectedFarmId, farms := some d.farms,
    expenses := some d.expenses }

/-- The statistics object returned by importAllData (db.js:822-825). -/
structure ImportStats where
  farmsImported : Nat
  expensesImported : Nat
deriving Repr, DecidableEq

/-- exportAllData (db.js:750-770): three reads, then a pure assembly of the
document; the store is passed through untouched. -/
def exportAllData (now : Nat) (s : Store) : ExportData × Store :=
  ({ version := "1.0", exportDate := now, selectedFarmId := getSelectedFarmId s,
     farms := getAllFarms s, expenses := getAllExpenses s }, s)

/-- importAllData (db.js:777-833): validate the version tag, clear farms and
expenses, re-insert through the normal save paths, restore the selected farm
pointer when truthy. On a validation failure the store is returned unchanged
because the throw precedes every mutation. -/
def importAllData (now : Nat) (data? : Option BackupDoc) (s : Store) :
    Except DBError ImportStats × Store :=
  match data? with
  | none => (.error .invalidFormat, s)
  | some data =>
    if data.version.getD "" = "" then (.error .invalidFormat, s)
    else
      let s1 := { s with farms := [], expenses := [] }
      let s2 := (data.farms.getD []).foldl (fun st f => (saveFarm now f st).2) s1
      let s3 := (data.expenses.getD []).foldl (fun st e => saveExpense e st) s2
      let s4 :=
        match data.selectedFarmId with
        | some fid => if fid = "" then s3 else setSelectedFarmId fid s3
        | none => s3
      (.ok { farmsImported := (data.farms.getD []).length,
             expensesImported := (data.expenses.getD []).length }, s4)

/-- The four object stores created by initDB (db.js:41-70). -/
inductive ObjectStoreName where
  | farms | farmInfo | expenses | settings
deriving Repr, DecidableEq

/-- Which object stores initDB creates with an in-line keyPath: farms and
expenses use keyPath id; farmInfo and settings take out-of-line keys. -/
def hasInlineKeyPath : ObjectStoreName → Bool
  | .farms => true
  | .expenses => true
  | .farmInfo => false
  | .settings => false

/-- JS String.prototype.startsWith: a character-prefix check. -/
def strStartsWith (s p : String) : Bool := p.data.isPrefixOf s.data

/-- getStoreName (db.js:631-639): key-to-collection routing for the generic
key/value mode. -/
def getStoreName (key : String) : ObjectStoreName :=
  if key = "farmInfo" then .farmInfo
  else if key = "expenseData" ∨ strStartsWith key "expense" then .expenses
  else .settings

/-- Outcome of setItem (db.js:91-109), which issues put(serializedValue, key)
with an explicit out-of-line key on the store chosen by getStoreName.
Modelled from the IndexedDB platform semantics (external to this repository):
a put that supplies an explicit key on an object store created with an
in-line keyPath fails with DataError; on an out-of-line-key store it succeeds
barring storage faults. -/
def setItemOutcome (key : String) : Except DBError Unit :=
  if hasInlineKeyPath (getStoreName key) then .error .dataError else .ok ()

/-- The invariant the persistence layer maintains on taskCompletions lists:
at most one record per (stageIndex, taskIndex) pair. -/
def atMostOnePerPair (l : List TaskCompletion) : Prop :=
  ∀ si ti : Nat, (l.filter (sameTask si ti)).length ≤ 1

/-- The relinking applied to one expense by the migration loop (db.js:535-540). -/
def relinkExpense (nid : String) (e : Expense) : Expense :=
  if e.farmId.getD "" = "" then { e with farmId := some nid } else e

/-- A concrete farm record used by witness and counterexample theorems. -/
def farmA : Farm := { id := "f1", updatedAt := some 0, taskCompletions := some [] }

/-- A concrete one-farm store used by witness and counterexample theorems. -/
def storeA : Store := { farms := [farmA] }

/-- A concrete farm used by witness theorems. -/
def farmB : Farm :=
  { id := "f1", name := "plot", size := 2, startDate := "2025-01-01", cropping := "first" }

/-- A concrete expense linked to farmB. -/
def expB : Expense :=
  { id := "e1", farmId := some "f1", name := "seed", category := "input",
    amount := 3, date := "2025-02-01" }

/-- A concrete populated store used by witness theorems. -/
def storeB : Store :=
  { farms := [farmB], expenses := [expB], selectedFarmId := some "f1" }

/-- A concrete orphan expense (no farmId) used by witness theorems. -/
def expC : Expense :=
  { id := "e2", name := "fuel", category := "ops", amount := 4, date := "2025-03-01" }

/-- A concrete legacy record used by witness theorems. -/
def legacyC : LegacyFarm :=
  { name := "Plot A", size := 2, startDate := "2025-01-01", cropping := "first" }

/-- A concrete pre-migration store: a legacy record, no farms, one orphan expense. -/
def storeC : Store := { expenses := [expC], legacyFarm := some legacyC }

theorem map_replace_eq_self {α : Type} (key : α → String) (k : String) (x : α)
    (l : List α) (h : ∀ y ∈ l, ¬ key y = k) :
    l.map (fun y => if key y = k then x else y) = l := by
  induction l with
  | nil => rfl
  | cons a t ih =>
    simp only [List.map_cons]
    rw [if_neg (h a (List.mem_cons_self a t)),
      ih (fun y hy => h y (List.mem_cons_of_mem a hy))]

theorem putByKey_of_forall_ne {α : Type} (key : α → String) (l : List α) (x : α)
    (h : ∀ y ∈ l, ¬ key y = key x) :
    putByKey key l x = l ++ [x] := by
  unfold putByKey
  rw [if_neg]
  intro hc
  rw [List.any_eq_true] at hc
  obtain ⟨y, hy, hk⟩ := hc
  rw [decide_eq_true_eq] at hk
  exact h y hy hk

theorem find?_map_replace {α : Type} (key : α → String) (x : α) :
    ∀ l : List α, (∃ z ∈ l, key z = key x) →
      (l.map (fun y => if key y = key x then x else y)).find?
        (fun y => decide (key y = key x)) = some x := by
  intro l
  induction l with
  | nil => rintro ⟨z, hz, _⟩; cases hz
  | cons a t ih =>
    rintro ⟨z, hz, hk⟩
    simp only [List.map_cons]
    by_cases ha : key a = key x
    · rw [if_pos ha]
      rw [List.find?_cons_of_pos _ (by simp)]
    · rw [if_neg ha]
      rw [List.find?_cons_of_neg _ (by simp [ha])]
      apply ih
      rcases List.mem_cons.mp hz with h1 | h2
      · exact absurd (h1 ▸ hk) ha
      · exact ⟨z, h2, hk⟩

theorem find?_putByKey {α : Type} (key : α → String) (l : List α) (x : α) :
    (putByKey key l x).find? (fun y => decide (key y = key x)) = some x := by
  unfold putByKey
  by_cases h : (l.any (fun y => decide (key y = key x))) = true
  · rw [if_pos h]
    rw [List.any_eq_true] at h
    obtain ⟨z, hz, hk⟩ := h
    rw [decide_eq_true_eq] at hk
    exact find?_map_replace key x l ⟨z, hz, hk⟩
  · rw [if_neg h]
    rw [List.any_eq_true] at h
    push_neg at h
    induction l with
    | nil => simp [List.find?_cons_of_pos]
    | cons a t ih =>
      rw [List.cons_append]
      rw [@List.find?_cons_of_neg α (fun y => decide (key y = key x)) a (t ++ [x])
        (h a (List.mem_cons_self a t))]
      exact ih (fun y hy => h y (List.mem_cons_of_mem a hy))

theorem putByKey_replace {α : Type} (key : α → String) (pre post : List α) (e x : α)
    (hx : key x = key e)
    (hpre : ∀ y ∈ pre, ¬ key y = key e) (hpost : ∀ y ∈ post, ¬ key y = key e) :
    putByKey key (pre ++ e :: post) x = pre ++ x :: post := by
  unfold putByKey
  rw [if_pos]
  · rw [List.map_append, List.map_cons, if_pos hx.symm]
    rw [hx] at *
    rw [map_replace_eq_self key (key e) x pre hpre,
      map_replace_eq_self key (key e) x post hpost]
  · rw [List.any_eq_true]
    exact ⟨e, by simp, by simp [hx]⟩

theorem foldl_putByKey_of_disjoint {α : Type} (key : α → String) :
    ∀ (l acc : List α), (l.map key).Nodup →
      (∀ y ∈ l, ∀ z ∈ acc, ¬ key z = key y) →
      l.foldl (putByKey key) acc = acc ++ l := by
  intro l
  induction l with
  | nil => intro acc _ _; simp
  | cons x t ih =>
    intro acc hnd hdis
    simp only [List.foldl_cons]
    rw [putByKey_of_forall_ne key acc x
      (fun z hz hk => hdis x (List.mem_cons_self x t) z hz hk)]
    rw [List.map_cons, List.nodup_cons] at hnd
    rw [ih (acc ++ [x]) hnd.2 ?_]
    · simp
    · intro y hy z hz
      rcases List.mem_append.mp hz with h1 | h2
      · exact hdis y (List.mem_cons_of_mem x hy) z h1
      · rw [List.mem_singleton] at h2
        subst h2
        intro hk
        exact hnd.1 (hk ▸ List.mem_map_of_mem key hy)

theorem genFarmId_ne_empty (now : Nat) : genFarmId now ≠ "" := by
  intro h
  have h2 : (genFarmId now).length = 0 := by rw [h]; rfl
  rw [genFarmId, String.length_append] at h2
  have h3 : ("farm_").length = 5 := rfl
  rw [h3] at h2
  omega

theorem getFarm_id_eq {fid : String} {s : Store} {farm : Farm}
    (h : getFarm fid s = some farm) : farm.id = fid := by
  have h2 := List.find?_some h
  rwa [decide_eq_true_eq] at h2

theorem getFarm_mem {fid : String} {s : Store} {farm : Farm}
    (h : getFarm fid s = some farm) : farm ∈ s.farms :=
  List.mem_of_find?_eq_some h

theorem getFarm_put (s : Store) (f : Farm) :
    getFarm f.id { s with farms := putByKey Farm.id s.farms f } = some f :=
  find?_putByKey Farm.id s.farms f

theorem saveFarm_of_ne (now : Nat) (farm : Farm) (s : Store) (h : ¬ farm.id = "") :
    saveFarm now farm s = (farm.id, { s with farms := putByKey Farm.id s.farms farm }) := by
  simp only [saveFarm]
  rw [if_neg h]

theorem saveFarm_fold_store (now : Nat) :
    ∀ (todo : List Farm) (st : Store), (∀ f ∈ todo, ¬ f.id = "") →
      todo.foldl (fun st f => (saveFarm now f st).2) st
        = { st with farms := todo.foldl (putByKey Farm.id) st.farms } := by
  intro todo
  induction todo with
  | nil => intro st _; rfl
  | cons f t ih =>
    intro st h
    simp only [List.foldl_cons]
    rw [saveFarm_of_ne now f st (h f (List.mem_cons_self f t))]
    exact ih _ (fun g hg => h g (List.mem_cons_of_mem f hg))

theorem saveExpense_fold_store :
    ∀ (todo : List Expense) (st : Store),
      todo.foldl (fun st e => saveExpense e st) st
        = { st with expenses := todo.foldl (putByKey Expense.id) st.expenses } := by
  intro todo
  induction todo with
  | nil => intro st; rfl
  | cons e t ih =>
    intro st
    simp only [List.foldl_cons]
    exact ih _

theorem deleteExpense_fold_store :
    ∀ (todo : List Expense) (st : Store),
      todo.foldl (fun st e => deleteExpense e.id st) st
        = { st with expenses :=
              todo.foldl (fun l e => l.filter (fun y => decide (¬ y.id = e.id))) st.expenses } := by
  intro todo
  induction todo with
  | nil => intro st; rfl
  | cons e t ih =>
    intro st
    simp only [List.foldl_cons]
    exact ih _

theorem relink_fold_store (nid : String) :
    ∀ (todo : List Expense) (st : Store),
      todo.foldl
        (fun st e =>
          if e.farmId.getD "" = "" then saveExpense { e with farmId := some nid } st
          else st) st
        = { st with expenses :=
              (todo.foldl
                (fun l e =>
                  if e.farmId.getD "" = "" then putByKey Expense.id l { e with farmId := some nid }
                  else l) st.expenses) } := by
  intro todo
  induction todo with
  | nil => intro st; rfl
  | cons e t ih =>
    intro st
    simp only [List.foldl_cons]
    by_cases hm : e.farmId.getD "" = ""
    · rw [if_pos hm, if_pos hm]
      exact ih _
    · rw [if_neg hm, if_neg hm]
      exact ih _

theorem nodup_middle_facts {pre post : List Expense} {e : Expense}
    (hnd : ((pre ++ e :: post).map Expense.id).Nodup) :
    (∀ y ∈ pre, ¬ y.id = e.id) ∧ (∀ y ∈ post, ¬ y.id = e.id) := by
  rw [List.map_append, List.map_cons] at hnd
  have h1 := List.nodup_middle.mp hnd
  rw [List.nodup_cons] at h1
  have h2 : e.id ∉ pre.map Expense.id ∧ e.id ∉ post.map Expense.id := by
    constructor
    · intro hc; exact h1.1 (List.mem_append.mpr (Or.inl hc))
    · intro hc; exact h1.1 (List.mem_append.mpr (Or.inr hc))
  constructor
  · intro y hy hk
    exact h2.1 (hk ▸ List.mem_map_of_mem Expense.id hy)
  · intro y hy hk
    exact h2.2 (hk ▸ List.mem_map_of_mem Expense.id hy)

theorem foldl_relink (nid : String) :
    ∀ (todo pre : List Expense),
      ((pre ++ todo).map Expense.id).Nodup →
      todo.foldl
        (fun l e =>
          if e.farmId.getD "" = "" then putByKey Expense.id l { e with farmId := some nid }
          else l)
        (pre ++ todo)
        = pre ++ todo.map (relinkExpense nid) := by
  intro todo
  induction todo with
  | nil => intro pre _; simp
  | cons e t ih =>
    intro pre hnd
    have hfacts := nodup_middle_facts hnd
    simp only [List.foldl_cons]
    by_cases hm : e.farmId.getD "" = ""
    · rw [if_pos hm]
      rw [putByKey_replace Expense.id pre t e { e with farmId := some nid } rfl
        hfacts.1 hfacts.2]
      have hsplit : pre ++ { e with farmId := some nid } :: t
          = (pre ++ [{ e with farmId := some nid }]) ++ t := by simp
      have hnd2 : (((pre ++ [{ e with farmId := some nid }]) ++ t).map Expense.id).Nodup := by
        have hmap : (((pre ++ [{ e with farmId := some nid }]) ++ t).map Expense.id)
            = ((pre ++ e :: t).map Expense.id) := by simp
        rw [hmap]
        exact hnd
      have hihx := ih (pre ++ [{ e with farmId := some nid }]) hnd2
      rw [hsplit, hihx]
      simp [relinkExpense, hm]
    · rw [if_neg hm]
      have hsplit : pre ++ e :: t = (pre ++ [e]) ++ t := by simp
      rw [hsplit, ih (pre ++ [e]) (by simpa using hnd)]
      simp [relinkExpense, hm]

theorem foldl_delete_filter :
    ∀ (todo l : List Expense),
      todo.foldl (fun l e => l.filter (fun y => decide (¬ y.id = e.id))) l
        = l.filter (fun y => decide (y.id ∉ todo.map Expense.id)) := by
  intro todo
  induction todo with
  | nil =>
    intro l
    simp only [List.foldl_nil, List.map_nil]
    rw [List.filter_eq_self.mpr]
    intro a _
    simp
  | cons e t ih =>
    intro l
    simp only [List.foldl_cons, List.map_cons]
    rw [ih]
    rw [List.filter_filter]
    apply List.filter_congr
    intro y _
    rw [Bool.and_comm]
    rw [← Bool.decide_and]
    rw [decide_eq_decide]
    simp [not_or]

theorem msPerDay_pos : (0:Int) < msPerDay := by norm_num [msPerDay]

theorem fdiv_msPerDay_eq (a : Int) : Int.fdiv a msPerDay = a / msPerDay :=
  Int.fdiv_eq_ediv a (le_of_lt msPerDay_pos)

theorem delayDaysOf_eq (a b : Int) :
    delayDaysOf a b = b / msPerDay - a / msPerDay := by
  unfold delayDaysOf normalizeToMidnight
  rw [fdiv_msPerDay_eq a, fdiv_msPerDay_eq b, ← sub_mul, fdiv_msPerDay_eq]
  exact Int.mul_ediv_cancel _ (ne_of_gt msPerDay_pos)

theorem ediv_day_add (d h : Int) (h0 : 0 ≤ h) (h1 : h < msPerDay) :
    (d * msPerDay + h) / msPerDay = d := by
  rw [add_comm, mul_comm]
  rw [Int.add_mul_ediv_left h d (ne_of_gt msPerDay_pos)]
  rw [Int.ediv_eq_zero_of_lt h0 h1]
  ring

theorem upsertCompletion_cons (si ti : Nat) (a : TaskCompletion)
    (t : List TaskCompletion) (c : TaskCompletion) :
    upsertCompletion si ti (a :: t) c =
      if sameTask si ti a then c :: t else a :: upsertCompletion si ti t c := by
  unfold upsertCompletion
  rw [List.findIdx?_cons]
  by_cases h : sameTask si ti a = true
  · simp [h]
  · rw [Bool.not_eq_true] at h
    rw [List.findIdx?_succ]
    cases hfi : List.findIdx? (sameTask si ti) t with
    | none => simp [h, hfi]
    | some i => simp [h, hfi]

theorem atMostOnePerPair_nil : atMostOnePerPair [] := by
  intro si ti
  simp

theorem atMostOnePerPair_of_cons {a : TaskCompletion} {t : List TaskCompletion}
    (h : atMostOnePerPair (a :: t)) : atMostOnePerPair t := by
  intro si ti
  have h2 := h si ti
  rw [List.filter_cons] at h2
  by_cases ha : sameTask si ti a = true
  · rw [if_pos ha] at h2
    rw [List.length_cons] at h2
    omega
  · rw [if_neg ha] at h2
    exact h2

theorem upsert_filter_same (si ti : Nat) (c : TaskCompletion)
    (hc : sameTask si ti c = true) :
    ∀ l : List TaskCompletion, atMostOnePerPair l →
      (upsertCompletion si ti l c).filter (sameTask si ti) = [c] := by
  intro l
  induction l with
  | nil =>
    intro _
    unfold upsertCompletion
    simp [hc]
  | cons a t ih =>
    intro hinv
    rw [upsertCompletion_cons]
    by_cases ha : sameTask si ti a = true
    · rw [if_pos ha, List.filter_cons, if_pos hc]
      have h2 : (t.filter (sameTask si ti)).length = 0 := by
        have h1 := hinv si ti
        rw [List.filter_cons, if_pos ha, List.length_cons] at h1
        omega
      rw [List.length_eq_zero] at h2
      rw [h2]
    · rw [if_neg ha, List.filter_cons, if_neg ha]
      exact ih (atMostOnePerPair_of_cons hinv)

theorem sameTask_congr (si ti k1 k2 : Nat) (a c : TaskCompletion)
    (hsa : sameTask si ti a = true) (hsc : sameTask si ti c = true) :
    sameTask k1 k2 a = sameTask k1 k2 c := by
  unfold sameTask at hsa hsc
  rw [Bool.and_eq_true, beq_iff_eq, beq_iff_eq] at hsa hsc
  unfold sameTask
  rw [hsa.1, hsa.2, hsc.1, hsc.2]

theorem upsert_filter_other (si ti k1 k2 : Nat) (c : TaskCompletion)
    (hc : sameTask si ti c = true) (hk : sameTask k1 k2 c = false) :
    ∀ l, (upsertCompletion si ti l c).filter (sameTask k1 k2)
          = l.filter (sameTask k1 k2) := by
  intro l
  induction l with
  | nil =>
    unfold upsertCompletion
    simp [hk]
  | cons a t ih =>
    rw [upsertCompletion_cons]
    by_cases ha : sameTask si ti a = true
    · rw [if_pos ha]
      have hak : sameTask k1 k2 a = false := by
        rw [sameTask_congr si ti k1 k2 a c ha hc]
        exact hk
      rw [List.filter_cons, List.filter_cons, if_neg (by simp [hk]), if_neg (by simp [hak])]
    · rw [if_neg ha, List.filter_cons, List.filter_cons, ih]

theorem upsert_preserves_inv (si ti : Nat) (c : TaskCompletion)
    (hc : sameTask si ti c = true) (l : List TaskCompletion)
    (hl : atMostOnePerPair l) : atMostOnePerPair (upsertCompletion si ti l c) := by
  intro k1 k2
  by_cases hk : sameTask k1 k2 c = true
  · have hsi : k1 = si ∧ k2 = ti := by
      unfold sameTask at hc hk
      rw [Bool.and_eq_true, beq_iff_eq, beq_iff_eq] at hc hk
      constructor
      · rw [← hk.1, ← hc.1]
      · rw [← hk.2, ← hc.2]
    rw [hsi.1, hsi.2]
    rw [upsert_filter_same si ti c hc l hl]
    simp
  · rw [Bool.not_eq_true] at hk
    rw [upsert_filter_other si ti k1 k2 c hc hk l]
    exact hl k1 k2

theorem markFarmCompleted_found (now : Nat) (fid : String) (s : Store) (farm : Farm)
    (hfound : getFarm fid s = some farm) (hne : ¬ farm.id = "") :
    markFarmCompleted now fid s
      = .ok { s with farms := (putByKey Farm.id s.farms
          { farm with completed := true, completedDate := some now, updatedAt := some now }) } := by
  unfold markFarmCompleted
  simp only [hfound]
  rw [saveFarm_of_ne now
    { farm with completed := true, completedDate := some now, updatedAt := some now } s hne]

theorem markFarmActive_found (now : Nat) (fid : String) (s : Store) (farm : Farm)
    (hfound : getFarm fid s = some farm) (hne : ¬ farm.id = "") :
    markFarmActive now fid s
      = .ok { s with farms := (putByKey Farm.id s.farms
          { farm with completed := false, completedDate := none, updatedAt := some now }) } := by
  unfold markFarmActive
  simp only [hfound]
  rw [saveFarm_of_ne now
    { farm with completed := false, completedDate := none, updatedAt := some now } s hne]

/-- C2: for every store state and every input document that is null or lacks a
version field, importAllData fails with InvalidFormat and leaves the store
completely unchanged, because the validation check precedes every mutation. -/
theorem importAllData_invalid_C2 (now : Nat) (s : Store) :
    importAllData now none s = (.error .invalidFormat, s) ∧
    ∀ d : BackupDoc, d.version = none →
      importAllData now (some d) s = (.error .invalidFormat, s) := by
  constructor
  · rfl
  · intro d hv
    simp [importAllData, hv]

theorem importAllData_invalid_C2_witness :
    importAllData 0 none {} = (.error .invalidFormat, ({} : Store)) ∧
    importAllData 0 (some {}) {} = (.error .invalidFormat, ({} : Store)) :=
  ⟨(importAllData_invalid_C2 0 {}).1, (importAllData_invalid_C2 0 {}).2 {} rfl⟩

/-- C10: every key that getStoreName routes to the Expenses collection (the key
expenseData or any key beginning with expense) makes setItem fail with
DataError, because the expenses store keeps records under an in-line keyPath
while setItem supplies an explicit external key; the generic key/value mode
succeeds exactly for keys routed to the Settings or legacy farmInfo stores. -/
theorem setItem_expenseKeys_C10 (key : String) :
    ((key = "expenseData" ∨ strStartsWith key "expense" = true) →
      setItemOutcome key = .error .dataError) ∧
    (setItemOutcome key = .ok () ↔
      (getStoreName key = .settings ∨ getStoreName key = .farmInfo)) := by
  constructor
  · intro h
    have hkey : ¬ key = "farmInfo" := by
      intro he
      subst he
      rcases h with h1 | h2
      · exact absurd h1 (by decide)
      · exact absurd h2 (by decide)
    unfold setItemOutcome getStoreName
    rw [if_neg hkey, if_pos h]
    rfl
  · unfold setItemOutcome
    cases hg : getStoreName key with
    | farms => simp [hasInlineKeyPath]
    | expenses => simp [hasInlineKeyPath]
    | farmInfo => simp [hasInlineKeyPath]
    | settings => simp [hasInlineKeyPath]

theorem setItem_expenseKeys_C10_witness :
    setItemOutcome "expenseData" = .error .dataError ∧
    setItemOutcome "expenses" = .error .dataError ∧
    setItemOutcome "selectedFarmId" = .ok () ∧
    setItemOutcome "farmInfo" = .ok () :=
  ⟨(setItem_expenseKeys_C10 "expenseData").1 (Or.inl rfl),
   (setItem_expenseKeys_C10 "expenses").1 (Or.inr (by decide)),
   (setItem_expenseKeys_C10 "selectedFarmId").2.mpr (Or.inl (by decide)),
   (setItem_expenseKeys_C10 "farmInfo").2.mpr (Or.inr (by decide))⟩

/-- C6 counterexample: saving an existing farm record whose updatedAt is 0 at
call time 5 stores it with updatedAt still 0 — saveFarm does not refresh the
updatedAt timestamp, contradicting the claim. -/
theorem saveFarm_C6_counterexample :
    (getFarm "f1" (saveFarm 5 farmA storeA).2).map Farm.updatedAt = some (some 0) ∧
    (some 0 : Option Nat) ≠ some 5 := by
  constructor
  · decide
  · decide

/-- C6 amended: saveFarm stores the record exactly as given (updatedAt is not
refreshed); when the id is absent (falsy) it assigns the non-empty generated id
farm_<now>; re-fetching by the returned id returns the stored record. -/
theorem saveFarm_C6_amended (now : Nat) (farm : Farm) (s : Store) :
    ∃ stored : Farm,
      stored = (if farm.id = "" then { farm with id := genFarmId now } else farm) ∧
      saveFarm now farm s
        = (stored.id, { s with farms := putByKey Farm.id s.farms stored }) ∧
      stored.updatedAt = farm.updatedAt ∧
      ¬ stored.id = "" ∧
      getFarm (saveFarm now farm s).1 (saveFarm now farm s).2 = some stored := by
  refine ⟨if farm.id = "" then { farm with id := genFarmId now } else farm,
    rfl, ?_, ?_, ?_, ?_⟩
  · by_cases h : farm.id = ""
    · rw [if_pos h]
      simp only [saveFarm]
      rw [if_pos h]
    · rw [if_neg h]
      exact saveFarm_of_ne now farm s h
  · by_cases h : farm.id = ""
    · rw [if_pos h]
    · rw [if_neg h]
  · by_cases h : farm.id = ""
    · rw [if_pos h]
      exact genFarmId_ne_empty now
    · rw [if_neg h]
      exact h
  · by_cases h : farm.id = ""
    · have hsf : saveFarm now farm s
          = (({ farm with id := genFarmId now } : Farm).id,
             { s with farms := putByKey Farm.id s.farms { farm with id := genFarmId now } }) := by
        simp only [saveFarm]
        rw [if_pos h]
      rw [if_pos h, hsf]
      exact getFarm_put s { farm with id := genFarmId now }
    · rw [if_neg h, saveFarm_of_ne now farm s h]
      exact getFarm_put s farm

/-- C9 counterexample: the farm exists with an (empty) taskCompletions list and
updatedAt 0; deleting a pair that is not recorded, at call time 1, still bumps
the stored updatedAt to 1, so the stored farm record is not left unchanged. -/
theorem deleteTaskCompletion_C9_counterexample :
    (getFarm "f1" (deleteTaskCompletion 1 "f1" 0 0 storeA)).map Farm.updatedAt
      = some (some 1) ∧
    farmA.updatedAt = some 0 ∧
    deleteTaskCompletion 1 "f1" 0 0 storeA ≠ storeA := by
  refine ⟨by decide, by decide, by decide⟩

/-- C9 amended: when the farm is missing, or the farm has no taskCompletions
field, deleteTaskCompletion leaves the store fully unchanged; when the farm has
a taskCompletions list that contains no record for the pair, the list is left
unchanged but the farm is re-saved with updatedAt refreshed to the call time. -/
theorem deleteTaskCompletion_C9_amended (now : Nat) (fid : String) (si ti : Nat)
    (s : Store) :
    (getFarm fid s = none → deleteTaskCompletion now fid si ti s = s) ∧
    (∀ farm, getFarm fid s = some farm → farm.taskCompletions = none →
      deleteTaskCompletion now fid si ti s = s) ∧
    (∀ farm l, getFarm fid s = some farm → farm.taskCompletions = some l →
      (∀ tc ∈ l, sameTask si ti tc = false) → ¬ fid = "" →
      deleteTaskCompletion now fid si ti s
        = { s with farms := putByKey Farm.id s.farms { farm with updatedAt := some now } } ∧
      getFarm fid (deleteTaskCompletion now fid si ti s)
        = some { farm with updatedAt := some now }) := by
  refine ⟨?_, ?_, ?_⟩
  · intro hnone
    simp [deleteTaskCompletion, hnone]
  · intro farm hfound hnotc
    simp [deleteTaskCompletion, hfound, hnotc]
  · intro farm l hfound htc hnomatch hfid
    have hid := getFarm_id_eq hfound
    subst hid
    have hfilter : l.filter (fun tc => !(sameTask si ti tc)) = l := by
      rw [List.filter_eq_self]
      intro tc htcmem
      rw [hnomatch tc htcmem]
      rfl
    have hfarm1 : ({ farm with
          taskCompletions := some (l.filter (fun tc => !(sameTask si ti tc))),
          updatedAt := some now } : Farm)
        = { farm with updatedAt := some now } := by
      rw [hfilter]
      cases farm
      simp only at htc
      rw [htc]
    have hstep : deleteTaskCompletion now farm.id si ti s
        = { s with farms := putByKey Farm.id s.farms { farm with updatedAt := some now } } := by
      unfold deleteTaskCompletion
      simp only [hfound, htc]
      rw [hfarm1, saveFarm_of_ne now { farm with updatedAt := some now } s hfid]
      rw [htc]
    refine ⟨hstep, ?_⟩
    rw [hstep]
    exact getFarm_put s { farm with updatedAt := some now }

theorem deleteTaskCompletion_C9_amended_witness :
    deleteTaskCompletion 1 "f2" 0 0 storeA = storeA ∧
    deleteTaskCompletion 1 "f1" 0 0 storeA
      = { storeA with farms := putByKey Farm.id storeA.farms { farmA with updatedAt := some 1 } } :=
  ⟨(deleteTaskCompletion_C9_amended 1 "f2" 0 0 storeA).1 (by decide),
   ((deleteTaskCompletion_C9_amended 1 "f1" 0 0 storeA).2.2 farmA [] (by decide) (by decide)
      (by intro tc h; cases h) (by decide)).1⟩

/-- C5: saveTaskCompletion records delayDays computed as the whole-day
difference between completedDate and scheduledDate after normalizing both to
midnight, so two instants on the same calendar day always give 0 regardless of
time-of-day; for scheduled on 2025-03-10 (day 20157 since the epoch) and
completed on 2025-03-13 (day 20160) it gives 3, and for completed on
2025-03-08 (day 20155) it gives -2, at any time-of-day offsets h1 h2. -/
theorem delayDays_C5 (s : Store) (now : Nat) (fid : String) (si ti : Nat)
    (sd cd : Int) (farm : Farm) (hfarm : getFarm fid s = some farm) :
    (∃ st2, saveTaskCompletion now fid si ti sd cd s
        = .ok ({ stageIndex := si, taskIndex := ti, scheduledDate := sd,
                 completedDate := cd, delayDays := delayDaysOf sd cd,
                 timestamp := now }, st2)) ∧
    (∀ d h1 h2 : Int, 0 ≤ h1 → h1 < msPerDay → 0 ≤ h2 → h2 < msPerDay →
      delayDaysOf (d * msPerDay + h1) (d * msPerDay + h2) = 0) ∧
    (∀ h1 h2 : Int, 0 ≤ h1 → h1 < msPerDay → 0 ≤ h2 → h2 < msPerDay →
      delayDaysOf (20157 * msPerDay + h1) (20160 * msPerDay + h2) = 3) ∧
    (∀ h1 h2 : Int, 0 ≤ h1 → h1 < msPerDay → 0 ≤ h2 → h2 < msPerDay →
      delayDaysOf (20157 * msPerDay + h1) (20155 * msPerDay + h2) = -2) := by
  refine ⟨?_, ?_, ?_, ?_⟩
  · unfold saveTaskCompletion
    simp only [hfarm]
    exact ⟨_, rfl⟩
  · intro d h1 h2 hp1 hl1 hp2 hl2
    rw [delayDaysOf_eq, ediv_day_add d h2 hp2 hl2, ediv_day_add d h1 hp1 hl1]
    ring
  · intro h1 h2 hp1 hl1 hp2 hl2
    rw [delayDaysOf_eq, ediv_day_add 20160 h2 hp2 hl2, ediv_day_add 20157 h1 hp1 hl1]
    norm_num
  · intro h1 h2 hp1 hl1 hp2 hl2
    rw [delayDaysOf_eq, ediv_day_add 20155 h2 hp2 hl2, ediv_day_add 20157 h1 hp1 hl1]
    norm_num

theorem delayDays_C5_witness :
    getFarm "f1" storeA = some farmA ∧
    delayDaysOf (20157 * msPerDay + 3600000) (20160 * msPerDay + 7200000) = 3 ∧
    delayDaysOf (20157 * msPerDay + 3600000) (20155 * msPerDay + 7200000) = -2 ∧
    delayDaysOf (5 * msPerDay + 0) (5 * msPerDay + 82800000) = 0 :=
  ⟨by decide,
   (delayDays_C5 storeA 9 "f1" 0 1 100 200 farmA (by decide)).2.2.1 3600000 7200000
     (by norm_num) (by norm_num [msPerDay]) (by norm_num) (by norm_num [msPerDay]),
   (delayDays_C5 storeA 9 "f1" 0 1 100 200 farmA (by decide)).2.2.2 3600000 7200000
     (by norm_num) (by norm_num [msPerDay]) (by norm_num) (by norm_num [msPerDay]),
   (delayDays_C5 storeA 9 "f1" 0 1 100 200 farmA (by decide)).2.1 5 0 82800000
     (by norm_num) (by norm_num [msPerDay]) (by norm_num) (by norm_num [msPerDay])⟩

/-- C7: for an existing farm, markFarmCompleted then markFarmActive returns the
farm to completed = false with completedDate absent, with updatedAt strictly
increasing across the two calls (the call instants satisfy t1 < t2); for an id
with no farm, both operations fail with NotFound. -/
theorem mark_roundtrip_C7 (s : Store) (fid : String) (t1 t2 : Nat)
    (hfid : ¬ fid = "") (ht : t1 < t2) :
    (∀ farm, getFarm fid s = some farm →
      ∃ s1 s2 farm1 farm2,
        markFarmCompleted t1 fid s = .ok s1 ∧
        markFarmActive t2 fid s1 = .ok s2 ∧
        getFarm fid s1 = some farm1 ∧
        getFarm fid s2 = some farm2 ∧
        farm1.completed = true ∧ farm1.completedDate = some t1 ∧
        farm1.updatedAt = some t1 ∧
        farm2.completed = false ∧ farm2.completedDate = none ∧
        farm2.updatedAt = some t2 ∧ t1 < t2) ∧
    (getFarm fid s = none →
      markFarmCompleted t1 fid s = .error .notFound ∧
      markFarmActive t2 fid s = .error .notFound) := by
  constructor
  · intro farm hfound
    have hid := getFarm_id_eq hfound
    subst hid
    have h1 := markFarmCompleted_found t1 farm.id s farm hfound hfid
    have hg1 := getFarm_put s
      { farm with completed := true, completedDate := some t1, updatedAt := some t1 }
    have h2 := markFarmActive_found t2
      ({ farm with completed := true, completedDate := some t1, updatedAt := some t1 } : Farm).id
      { s with farms := (putByKey Farm.id s.farms
          { farm with completed := true, completedDate := some t1, updatedAt := some t1 }) }
      { farm with completed := true, completedDate := some t1, updatedAt := some t1 }
      hg1 hfid
    have hg2 := getFarm_put
      { s with farms := (putByKey Farm.id s.farms
          { farm with completed := true, completedDate := some t1, updatedAt := some t1 }) }
      { { farm with completed := true, completedDate := some t1, updatedAt := some t1 }
          with completed := false, completedDate := none, updatedAt := some t2 }
    exact ⟨_, _, _, _, h1, h2, hg1, hg2, rfl, rfl, rfl, rfl, rfl, rfl, ht⟩
  · intro hnone
    constructor
    · unfold markFarmCompleted
      simp only [hnone]
    · unfold markFarmActive
      simp only [hnone]

theorem mark_roundtrip_C7_witness :
    (∃ s1 s2 farm1 farm2,
      markFarmCompleted 1 "f1" storeA = .ok s1 ∧
      markFarmActive 2 "f1" s1 = .ok s2 ∧
      getFarm "f1" s1 = some farm1 ∧
      getFarm "f1" s2 = some farm2 ∧
      farm1.completed = true ∧ farm1.completedDate = some 1 ∧
      farm1.updatedAt = some 1 ∧
      farm2.completed = false ∧ farm2.completedDate = none ∧
      farm2.updatedAt = some 2 ∧ 1 < 2) ∧
    (markFarmCompleted 1 "nofarm" storeA = .error .notFound ∧
     markFarmActive 2 "nofarm" storeA = .error .notFound) :=
  ⟨(mark_roundtrip_C7 storeA "f1" 1 2 (by decide) (by decide)).1 farmA (by decide),
   (mark_roundtrip_C7 storeA "nofarm" 1 2 (by decide) (by decide)).2 (by decide)⟩

/-- C8: after deleteExpensesByFarm(farmId), getExpensesByFarm(farmId) returns
the empty list, and every expense whose farmId differs is untouched: the
resulting expense list is exactly the original with the farm's expenses
filtered out, and farms and settings are untouched. Ids of stored expenses are
pairwise distinct, the invariant of the keyPath store. -/
theorem deleteExpensesByFarm_C8 (fid : String) (s : Store)
    (hnd : (s.expenses.map Expense.id).Nodup) :
    getExpensesByFarm fid (deleteExpensesByFarm fid s) = [] ∧
    (deleteExpensesByFarm fid s).expenses
      = s.expenses.filter (fun e => decide (¬ e.farmId = some fid)) ∧
    (deleteExpensesByFarm fid s).farms = s.farms ∧
    (deleteExpensesByFarm fid s).selectedFarmId = s.selectedFarmId := by
  have hexp : (deleteExpensesByFarm fid s).expenses
      = s.expenses.filter (fun e => decide (¬ e.farmId = some fid)) := by
    unfold deleteExpensesByFarm
    rw [deleteExpense_fold_store]
    show (getExpensesByFarm fid s).foldl
        (fun l e => l.filter (fun y => decide (¬ y.id = e.id))) s.expenses
      = s.expenses.filter (fun e => decide (¬ e.farmId = some fid))
    rw [foldl_delete_filter]
    apply List.filter_congr
    intro e he
    rw [decide_eq_decide]
    unfold getExpensesByFarm
    constructor
    · intro hnotin hfe
      apply hnotin
      exact List.mem_map_of_mem Expense.id
        (List.mem_filter.mpr ⟨he, by simp [hfe]⟩)
    · intro hne hin
      obtain ⟨z, hz, hzid⟩ := List.mem_map.mp hin
      have hzmem := (List.mem_filter.mp hz).1
      have hzfid : z.farmId = some fid := by
        have h2 := (List.mem_filter.mp hz).2
        simpa using h2
      have hze : z = e := List.inj_on_of_nodup_map hnd hzmem he hzid
      rw [hze] at hzfid
      exact hne hzfid
  refine ⟨?_, hexp, ?_, ?_⟩
  · unfold getExpensesByFarm
    rw [hexp, List.filter_filter]
    rw [List.filter_eq_nil_iff]
    intro e _
    by_cases h : e.farmId = some fid
    · simp [h]
    · simp [h]
  · unfold deleteExpensesByFarm
    rw [deleteExpense_fold_store]
  · unfold deleteExpensesByFarm
    rw [deleteExpense_fold_store]

/-- C1: exportAllData performs no mutation, and importing the exported
document back into the same store succeeds and yields a store whose farms
list, expenses list and selectedFarmId all equal the pre-export state (list
equality, hence set equality by id and field values). Stored farm ids are
nonempty and pairwise distinct and stored expense ids are pairwise distinct,
the invariants maintained by the save paths of the keyPath stores. -/
theorem export_import_roundtrip_C1 (s : Store) (tExp tImp : Nat)
    (hfnd : (s.farms.map Farm.id).Nodup)
    (hfne : ∀ f ∈ s.farms, ¬ f.id = "")
    (hend : (s.expenses.map Expense.id).Nodup) :
    (exportAllData tExp s).2 = s ∧
    ∃ stats s2,
      importAllData tImp (some (ExportData.toBackupDoc (exportAllData tExp s).1)) s
        = (.ok stats, s2) ∧
      s2.farms = s.farms ∧ s2.expenses = s.expenses ∧
      s2.selectedFarmId = s.selectedFarmId := by
  obtain ⟨sfarms, sexp, ssel, sleg⟩ := s
  replace hfnd : (sfarms.map Farm.id).Nodup := hfnd
  replace hfne : ∀ f ∈ sfarms, ¬ f.id = "" := hfne
  replace hend : (sexp.map Expense.id).Nodup := hend
  have h3 : ∀ ss : Option String,
      sfarms.foldl (fun st f => (saveFarm tImp f st).2) ⟨[], [], ss, sleg⟩
        = ⟨sfarms, [], ss, sleg⟩ := by
    intro ss
    rw [saveFarm_fold_store tImp sfarms ⟨[], [], ss, sleg⟩ hfne]
    show (⟨List.foldl (putByKey Farm.id) [] sfarms, [], ss, sleg⟩ : Store) = _
    rw [show List.foldl (putByKey Farm.id) [] sfarms = sfarms from by
      simpa using foldl_putByKey_of_disjoint Farm.id sfarms [] hfnd
        (fun y hy z hz => absurd hz (List.not_mem_nil z))]
  have h4 : ∀ ss : Option String,
      sexp.foldl (fun st e => saveExpense e st) ⟨sfarms, [], ss, sleg⟩
        = ⟨sfarms, sexp, ss, sleg⟩ := by
    intro ss
    rw [saveExpense_fold_store sexp ⟨sfarms, [], ss, sleg⟩]
    show (⟨sfarms, List.foldl (putByKey Expense.id) [] sexp, ss, sleg⟩ : Store) = _
    rw [show List.foldl (putByKey Expense.id) [] sexp = sexp from by
      simpa using foldl_putByKey_of_disjoint Expense.id sexp [] hend
        (fun y hy z hz => absurd hz (List.not_mem_nil z))]
  cases ssel with
  | none =>
    refine ⟨rfl, { farmsImported := sfarms.length, expensesImported := sexp.length },
      ⟨sfarms, sexp, none, sleg⟩, ?_, rfl, rfl, rfl⟩
    have hrfl : importAllData tImp
        (some (ExportData.toBackupDoc
          (exportAllData tExp ⟨sfarms, sexp, none, sleg⟩).1))
        ⟨sfarms, sexp, none, sleg⟩
        = (.ok { farmsImported := sfarms.length, expensesImported := sexp.length },
           sexp.foldl (fun st e => saveExpense e st)
             (sfarms.foldl (fun st f => (saveFarm tImp f st).2)
               ⟨[], [], none, sleg⟩)) := rfl
    rw [hrfl, h3 none, h4 none]
  | some fid =>
    have hrfl : importAllData tImp
        (some (ExportData.toBackupDoc
          (exportAllData tExp ⟨sfarms, sexp, some fid, sleg⟩).1))
        ⟨sfarms, sexp, some fid, sleg⟩
        = (.ok { farmsImported := sfarms.length, expensesImported := sexp.length },
           if fid = "" then
             sexp.foldl (fun st e => saveExpense e st)
               (sfarms.foldl (fun st f => (saveFarm tImp f st).2)
                 ⟨[], [], some fid, sleg⟩)
           else
             setSelectedFarmId fid
               (sexp.foldl (fun st e => saveExpense e st)
                 (sfarms.foldl (fun st f => (saveFarm tImp f st).2)
                   ⟨[], [], some fid, sleg⟩))) := rfl
    refine ⟨rfl, { farmsImported := sfarms.length, expensesImported := sexp.length },
      ⟨sfarms, sexp, some fid, sleg⟩, ?_, rfl, rfl, rfl⟩
    rw [hrfl, h3 (some fid), h4 (some fid)]
    by_cases hf : fid = ""
    · rw [if_pos hf]
    · rw [if_neg hf]
      rfl

theorem export_import_roundtrip_C1_witness :
    (exportAllData 3 storeB).2 = storeB ∧
    ∃ stats s2,
      importAllData 4 (some (ExportData.toBackupDoc (exportAllData 3 storeB).1)) storeB
        = (.ok stats, s2) ∧
      s2.farms = storeB.farms ∧ s2.expenses = storeB.expenses ∧
      s2.selectedFarmId = storeB.selectedFarmId :=
  export_import_roundtrip_C1 storeB 3 4 (by decide) (by decide) (by decide)

/-- C3: when a legacy record exists, no farms exist, and some expenses lack a
farmId, migrateLegacyData creates exactly one farm carrying the legacy name,
size, startDate and cropping, selects that farm, assigns its id to every
expense that lacked one, and a second run creates no farms and changes
nothing. Stored expense ids are pairwise distinct, the invariant of the
keyPath store. -/
theorem migrate_C3 (now now2 : Nat) (s : Store) (legacy : LegacyFarm)
    (hleg : s.legacyFarm = some legacy)
    (hnofarms : s.farms = [])
    (hnd : (s.expenses.map Expense.id).Nodup)
    (horphan : ∃ e ∈ s.expenses, e.farmId.getD "" = "") :
    ∃ newFarm : Farm,
      (migrateLegacyData now s).farms = [newFarm] ∧
      newFarm.name = legacy.name ∧ newFarm.size = legacy.size ∧
      newFarm.startDate = legacy.startDate ∧ newFarm.cropping = legacy.cropping ∧
      (migrateLegacyData now s).selectedFarmId = some newFarm.id ∧
      (migrateLegacyData now s).expenses = s.expenses.map (relinkExpense newFarm.id) ∧
      (∀ e ∈ s.expenses, e.farmId.getD "" = "" →
        { e with farmId := some newFarm.id } ∈ (migrateLegacyData now s).expenses) ∧
      migrateLegacyData now2 (migrateLegacyData now s) = migrateLegacyData now s := by
  obtain ⟨sfarms, sexp, ssel, sleg⟩ := s
  replace hleg : sleg = some legacy := hleg
  replace hnofarms : sfarms = [] := hnofarms
  replace hnd : (sexp.map Expense.id).Nodup := hnd
  subst hleg
  subst hnofarms
  have hmig1 : migrateLegacyData now ⟨[], sexp, ssel, some legacy⟩
      = List.foldl
          (fun st e =>
            if e.farmId.getD "" = "" then
              saveExpense { e with farmId := some (genFarmId now) } st
            else st)
          (setSelectedFarmId (genFarmId now)
            ((saveFarm now
              { id := genFarmId now, name := legacy.name, size := legacy.size,
                startDate := legacy.startDate, cropping := legacy.cropping,
                createdAt := some now }
              ⟨[], sexp, ssel, some legacy⟩).2))
          sexp := rfl
  have hinit : setSelectedFarmId (genFarmId now)
      ((saveFarm now
        { id := genFarmId now, name := legacy.name, size := legacy.size,
          startDate := legacy.startDate, cropping := legacy.cropping,
          createdAt := some now }
        ⟨[], sexp, ssel, some legacy⟩).2)
      = ⟨[{ id := genFarmId now, name := legacy.name, size := legacy.size,
            startDate := legacy.startDate, cropping := legacy.cropping,
            createdAt := some now }],
         sexp, some (genFarmId now), some legacy⟩ := by
    rw [saveFarm_of_ne now
      { id := genFarmId now, name := legacy.name, size := legacy.size,
        startDate := legacy.startDate, cropping := legacy.cropping,
        createdAt := some now }
      ⟨[], sexp, ssel, some legacy⟩ (genFarmId_ne_empty now)]
    rfl
  rw [hinit] at hmig1
  rw [relink_fold_store (genFarmId now) sexp] at hmig1
  have hrel := foldl_relink (genFarmId now) sexp [] (by simpa using hnd)
  simp only [List.nil_append] at hrel
  have hmig : migrateLegacyData now ⟨[], sexp, ssel, some legacy⟩
      = ⟨[{ id := genFarmId now, name := legacy.name, size := legacy.size,
            startDate := legacy.startDate, cropping := legacy.cropping,
            createdAt := some now }],
         sexp.map (relinkExpense (genFarmId now)), some (genFarmId now), some legacy⟩ := by
    rw [hmig1]
    simp only [hrel]
  refine ⟨{ id := genFarmId now, name := legacy.name, size := legacy.size,
            startDate := legacy.startDate, cropping := legacy.cropping,
            createdAt := some now },
    ?_, rfl, rfl, rfl, rfl, ?_, ?_, ?_, ?_⟩
  · rw [hmig]
  · rw [hmig]
  · rw [hmig]
  · intro e he hm
    rw [hmig]
    show _ ∈ sexp.map (relinkExpense (genFarmId now))
    refine List.mem_map.mpr ⟨e, he, ?_⟩
    unfold relinkExpense
    rw [if_pos hm]
  · rw [hmig]
    rfl

theorem migrate_C3_witness :
    ∃ newFarm : Farm,
      (migrateLegacyData 7 storeC).farms = [newFarm] ∧
      newFarm.name = legacyC.name ∧ newFarm.size = legacyC.size ∧
      newFarm.startDate = legacyC.startDate ∧ newFarm.cropping = legacyC.cropping ∧
      (migrateLegacyData 7 storeC).selectedFarmId = some newFarm.id ∧
      (migrateLegacyData 7 storeC).expenses = storeC.expenses.map (relinkExpense newFarm.id) ∧
      (∀ e ∈ storeC.expenses, e.farmId.getD "" = "" →
        { e with farmId := some newFarm.id } ∈ (migrateLegacyData 7 storeC).expenses) ∧
      migrateLegacyData 8 (migrateLegacyData 7 storeC) = migrateLegacyData 7 storeC :=
  migrate_C3 7 8 storeC legacyC (by decide) (by decide) (by decide)
    ⟨expC, by decide, by decide⟩

theorem saveTaskCompletion_found (now : Nat) (fid : String) (si ti : Nat)
    (sd cd : Int) (s : Store) (farm : Farm)
    (hfound : getFarm fid s = some farm) (hne : ¬ farm.id = "") :
    saveTaskCompletion now fid si ti sd cd s
      = .ok ({ stageIndex := si, taskIndex := ti, scheduledDate := sd,
               completedDate := cd, delayDays := delayDaysOf sd cd, timestamp := now },
             { s with farms := (putByKey Farm.id s.farms
                 { farm with
                     taskCompletions := some (upsertCompletion si ti
                       (farm.taskCompletions.getD [])
                       { stageIndex := si, taskIndex := ti, scheduledDate := sd,
                         completedDate := cd, delayDays := delayDaysOf sd cd,
                         timestamp := now }),
                     updatedAt := some now }) }) := by
  unfold saveTaskCompletion
  simp only [hfound]
  rw [saveFarm_of_ne now
    { farm with
        taskCompletions := some (upsertCompletion si ti
          (farm.taskCompletions.getD [])
          { stageIndex := si, taskIndex := ti, scheduledDate := sd,
            completedDate := cd, delayDays := delayDaysOf sd cd, timestamp := now }),
        updatedAt := some now } s hne]

/-- C4: the taskCompletions list keeps at most one record per (stageIndex,
taskIndex) pair — saveTaskCompletion preserves this invariant — and calling
saveTaskCompletion twice with the same pair but different completedDate leaves
exactly one TaskCompletion for the pair, carrying the second call's
scheduledDate, completedDate and delayDays. -/
theorem saveTaskCompletion_twice_C4 (s : Store) (fid : String) (si ti t1 t2 : Nat)
    (sd1 cd1 sd2 cd2 : Int) (farm : Farm)
    (hfid : ¬ fid = "")
    (hfarm : getFarm fid s = some farm)
    (hinv : atMostOnePerPair (farm.taskCompletions.getD []))
    (hdiff : ¬ cd1 = cd2) :
    ∃ c1 s1 c2 s2,
      saveTaskCompletion t1 fid si ti sd1 cd1 s = .ok (c1, s1) ∧
      saveTaskCompletion t2 fid si ti sd2 cd2 s1 = .ok (c2, s2) ∧
      atMostOnePerPair (getTaskCompletions fid s1) ∧
      atMostOnePerPair (getTaskCompletions fid s2) ∧
      c2 = { stageIndex := si, taskIndex := ti, scheduledDate := sd2,
             completedDate := cd2, delayDays := delayDaysOf sd2 cd2, timestamp := t2 } ∧
      (getTaskCompletions fid s2).filter (sameTask si ti) = [c2] := by
  have hid := getFarm_id_eq hfarm
  subst hid
  have hsame1 : sameTask si ti
      ({ stageIndex := si, taskIndex := ti, scheduledDate := sd1, completedDate := cd1,
         delayDays := delayDaysOf sd1 cd1, timestamp := t1 } : TaskCompletion) = true := by
    simp [sameTask]
  have hsame2 : sameTask si ti
      ({ stageIndex := si, taskIndex := ti, scheduledDate := sd2, completedDate := cd2,
         delayDays := delayDaysOf sd2 cd2, timestamp := t2 } : TaskCompletion) = true := by
    simp [sameTask]
  have h1 := saveTaskCompletion_found t1 farm.id si ti sd1 cd1 s farm hfarm hfid
  have hg1 : getFarm farm.id
      { s with farms := (putByKey Farm.id s.farms
          { farm with
              taskCompletions := some (upsertCompletion si ti
                (farm.taskCompletions.getD [])
                { stageIndex := si, taskIndex := ti, scheduledDate := sd1,
                  completedDate := cd1, delayDays := delayDaysOf sd1 cd1,
                  timestamp := t1 }),
              updatedAt := some t1 }) }
      = some { farm with
          taskCompletions := some (upsertCompletion si ti
            (farm.taskCompletions.getD [])
            { stageIndex := si, taskIndex := ti, scheduledDate := sd1,
              completedDate := cd1, delayDays := delayDaysOf sd1 cd1,
              timestamp := t1 }),
          updatedAt := some t1 } :=
    getFarm_put s
      { farm with
          taskCompletions := some (upsertCompletion si ti
            (farm.taskCompletions.getD [])
            { stageIndex := si, taskIndex := ti, scheduledDate := sd1,
              completedDate := cd1, delayDays := delayDaysOf sd1 cd1,
              timestamp := t1 }),
          updatedAt := some t1 }
  have h2 := saveTaskCompletion_found t2 farm.id si ti sd2 cd2
      { s with farms := (putByKey Farm.id s.farms
          { farm with
              taskCompletions := some (upsertCompletion si ti
                (farm.taskCompletions.getD [])
                { stageIndex := si, taskIndex := ti, scheduledDate := sd1,
                  completedDate := cd1, delayDays := delayDaysOf sd1 cd1,
                  timestamp := t1 }),
              updatedAt := some t1 }) }
      { farm with
          taskCompletions := some (upsertCompletion si ti
            (farm.taskCompletions.getD [])
            { stageIndex := si, taskIndex := ti, scheduledDate := sd1,
              completedDate := cd1, delayDays := delayDaysOf sd1 cd1,
              timestamp := t1 }),
          updatedAt := some t1 }
      hg1 hfid
  simp only [Option.getD_some] at h2
  have hinv1 : atMostOnePerPair (upsertCompletion si ti (farm.taskCompletions.getD [])
      { stageIndex := si, taskIndex := ti, scheduledDate := sd1, completedDate := cd1,
        delayDays := delayDaysOf sd1 cd1, timestamp := t1 }) :=
    upsert_preserves_inv si ti _ hsame1 _ hinv
  have hinv2 : atMostOnePerPair (upsertCompletion si ti
      (upsertCompletion si ti (farm.taskCompletions.getD [])
        { stageIndex := si, taskIndex := ti, scheduledDate := sd1, completedDate := cd1,
          delayDays := delayDaysOf sd1 cd1, timestamp := t1 })
      { stageIndex := si, taskIndex := ti, scheduledDate := sd2, completedDate := cd2,
        delayDays := delayDaysOf sd2 cd2, timestamp := t2 }) :=
    upsert_preserves_inv si ti _ hsame2 _ hinv1
  have hfilter := upsert_filter_same si ti
      ({ stageIndex := si, taskIndex := ti, scheduledDate := sd2, completedDate := cd2,
         delayDays := delayDaysOf sd2 cd2, timestamp := t2 } : TaskCompletion) hsame2
      (upsertCompletion si ti (farm.taskCompletions.getD [])
        { stageIndex := si, taskIndex := ti, scheduledDate := sd1, completedDate := cd1,
          delayDays := delayDaysOf sd1 cd1, timestamp := t1 }) hinv1
  have hg2 : getFarm farm.id
      { { s with farms := (putByKey Farm.id s.farms
            { farm with
                taskCompletions := some (upsertCompletion si ti
                  (farm.taskCompletions.getD [])
                  { stageIndex := si, taskIndex := ti, scheduledDate := sd1,
                    completedDate := cd1, delayDays := delayDaysOf sd1 cd1,
                    timestamp := t1 }),
                updatedAt := some t1 }) }
        with farms := (putByKey Farm.id
          (putByKey Farm.id s.farms
            { farm with
                taskCompletions := some (upsertCompletion si ti
                  (farm.taskCompletions.getD [])
                  { stageIndex := si, taskIndex := ti, scheduledDate := sd1,
                    completedDate := cd1, delayDays := delayDaysOf sd1 cd1,
                    timestamp := t1 }),
                updatedAt := some t1 })
          { { farm with
                taskCompletions := some (upsertCompletion si ti
                  (farm.taskCompletions.getD [])
                  { stageIndex := si, taskIndex := ti, scheduledDate := sd1,
                    completedDate := cd1, delayDays := delayDaysOf sd1 cd1,
                    timestamp := t1 }),
                updatedAt := some t1 }
            with
              taskCompletions := some (upsertCompletion si ti
                (upsertCompletion si ti (farm.taskCompletions.getD [])
                  { stageIndex := si, taskIndex := ti, scheduledDate := sd1,
                    completedDate := cd1, delayDays := delayDaysOf sd1 cd1,
                    timestamp := t1 })
                { stageIndex := si, taskIndex := ti, scheduledDate := sd2,
                  completedDate := cd2, delayDays := delayDaysOf sd2 cd2,
                  timestamp := t2 }),
              updatedAt := some t2 }) }
      = some { { farm with
            taskCompletions := some (upsertCompletion si ti
              (farm.taskCompletions.getD [])
              { stageIndex := si, taskIndex := ti, scheduledDate := sd1,
                completedDate := cd1, delayDays := delayDaysOf sd1 cd1,
                timestamp := t1 }),
            updatedAt := some t1 }
          with
            taskCompletions := some (upsertCompletion si ti
              (upsertCompletion si ti (farm.taskCompletions.getD [])
                { stageIndex := si, taskIndex := ti, scheduledDate := sd1,
                  completedDate := cd1, delayDays := delayDaysOf sd1 cd1,
                  timestamp := t1 })
              { stageIndex := si, taskIndex := ti, scheduledDate := sd2,
                completedDate := cd2, delayDays := delayDaysOf sd2 cd2,
                timestamp := t2 }),
            updatedAt := some t2 } :=
    getFarm_put
      { s with farms := (putByKey Farm.id s.farms
          { farm with
              taskCompletions := some (upsertCompletion si ti
                (farm.taskCompletions.getD [])
                { stageIndex := si, taskIndex := ti, scheduledDate := sd1,
                  completedDate := cd1, delayDays := delayDaysOf sd1 cd1,
                  timestamp := t1 }),
              updatedAt := some t1 }) }
      { { farm with
            taskCompletions := some (upsertCompletion si ti
              (farm.taskCompletions.getD [])
              { stageIndex := si, taskIndex := ti, scheduledDate := sd1,
                completedDate := cd1, delayDays := delayDaysOf sd1 cd1,
                timestamp := t1 }),
            updatedAt := some t1 }
        with
          taskCompletions := some (upsertCompletion si ti
            (upsertCompletion si ti (farm.taskCompletions.getD [])
              { stageIndex := si, taskIndex := ti, scheduledDate := sd1,
                completedDate := cd1, delayDays := delayDaysOf sd1 cd1,
                timestamp := t1 })
            { stageIndex := si, taskIndex := ti, scheduledDate := sd2,
              completedDate := cd2, delayDays := delayDaysOf sd2 cd2,
              timestamp := t2 }),
          updatedAt := some t2 }
  refine ⟨_, _, _, _, h1, h2, ?_, ?_, rfl, ?_⟩
  · have hgt1 : getTaskCompletions farm.id
        { s with farms := (putByKey Farm.id s.farms
            { farm with
                taskCompletions := some (upsertCompletion si ti
                  (farm.taskCompletions.getD [])
                  { stageIndex := si, taskIndex := ti, scheduledDate := sd1,
                    completedDate := cd1, delayDays := delayDaysOf sd1 cd1,
                    timestamp := t1 }),
                updatedAt := some t1 }) }
        = upsertCompletion si ti (farm.taskCompletions.getD [])
            { stageIndex := si, taskIndex := ti, scheduledDate := sd1,
              completedDate := cd1, delayDays := delayDaysOf sd1 cd1,
              timestamp := t1 } := by
      unfold getTaskCompletions
      simp only [hg1, Option.getD_some]
    rw [hgt1]
    exact hinv1
  · unfold getTaskCompletions
    simp only [hg2, Option.getD_some]
    exact hinv2
  · unfold getTaskCompletions
    simp only [hg2, Option.getD_some]
    exact hfilter

theorem saveTaskCompletion_twice_C4_witness :
    ∃ c1 s1 c2 s2,
      saveTaskCompletion 3 "f1" 0 1 100 (2 * msPerDay) storeA = .ok (c1, s1) ∧
      saveTaskCompletion 4 "f1" 0 1 100 (3 * msPerDay) s1 = .ok (c2, s2) ∧
      atMostOnePerPair (getTaskCompletions "f1" s1) ∧
      atMostOnePerPair (getTaskCompletions "f1" s2) ∧
      c2 = { stageIndex := 0, taskIndex := 1, scheduledDate := 100,
             completedDate := 3 * msPerDay,
             delayDays := delayDaysOf 100 (3 * msPerDay), timestamp := 4 } ∧
      (getTaskCompletions "f1" s2).filter (sameTask 0 1) = [c2] :=
  saveTaskCompletion_twice_C4 storeA "f1" 0 1 3 4 100 (2 * msPerDay) 100 (3 * msPerDay)
    farmA (by decide) (by decide) (by intro si ti; simp [farmA]) (by decide)

theorem deleteExpensesByFarm_C8_witness :
    getExpensesByFarm "f1" (deleteExpensesByFarm "f1" storeB) = [] ∧
    (deleteExpensesByFarm "f1" storeB).expenses
      = storeB.expenses.filter (fun e => decide (¬ e.farmId = some "f1")) ∧
    (deleteExpensesByFarm "f1" storeB).farms = storeB.farms ∧
    (deleteExpensesByFarm "f1" storeB).selectedFarmId = storeB.selectedFarmId :=
  deleteExpensesByFarm_C8 "f1" storeB (by decide)

end MADB
